import Mathlib

/-!
Verification of the go-url-shortener repository's specified core: the
identifier codec (`internal/service/id_generator.go`), the domain entity and
validators (`internal/domain/url.go`), the service-layer error taxonomy
(`internal/service/errors.go`), and the resolution service
(`internal/service/url_service.go`) over the Postgres repository
(`internal/repository/postgres/url_repository.go`) and Redis cache
(`internal/repository/redis/cache_repository.go`).

Modelling conventions:
* Go `int64` values (`click_count`, timestamps, codec arithmetic) are modelled
  as `Int`.  On every execution path verified here each intermediate value that
  the code goes on to use fits in `int64` (the round-trip theorem carries the
  `n < 2 ^ 63` domain bound of the source type), so arithmetic is modelled
  exactly rather than with wrap-around.
* `time.Time` is modelled as an `Int` instant; each service call receives the
  value of `time.Now()` as an explicit `now` argument.
* The crypto-random source consumed by `Generate` is modelled as an explicit
  stream `rand : Nat -> Fin 62` of uniform alphabet indices (one per emitted
  symbol); the random-source failure branch of the Go code is not modelled.
* Collaborator failures on best-effort paths are modelled by explicit boolean
  flags (`cacheSetFails`, `cacheDelFails`); a failed cache write or delete
  leaves the cache unchanged, exactly as a failed Redis call would.
* The database table is a `List URLRec`, the Redis keyspace a
  `List (String × URLRec)`.  SQL behaviour is translated from the literal
  queries in `url_repository.go` (e.g. `GetByID` filters `is_active = true`,
  `ExistsByID` does not).
-/

namespace UrlShortener

/-- Decidable equality for `Except`, so that concrete runs of the fallible
operations can be checked by `decide`. -/
instance instDecEqExcept {ε α : Type} [DecidableEq ε] [DecidableEq α] :
    DecidableEq (Except ε α) := fun x y =>
  match x, y with
  | .ok a, .ok b => decidable_of_iff (a = b) (by simp)
  | .error a, .error b => decidable_of_iff (a = b) (by simp)
  | .ok _, .error _ => .isFalse (by simp)
  | .error _, .ok _ => .isFalse (by simp)

/-! ## Error model (`internal/service/errors.go`) -/

/-- `ErrorCode` constants of `errors.go`. -/
inductive ErrorCode where
  | validation
  | notFound
  | conflict
  | internalError
  | unauthorized
  | rateLimit
  | expired
deriving DecidableEq

/-- A value of the Go `map[string]interface{}` details payload: the code only
ever stores strings and integers there. -/
inductive DetailVal where
  | str (v : String)
  | int (v : Int)
deriving DecidableEq

/-- `ServiceError` of `errors.go` (`Code`, `Message`, `Details`).  The Go
details map is unordered; it is modelled as an association list whose order
follows the insertion order of the constructing function. -/
structure ServiceError where
  code : ErrorCode
  message : String
  details : List (String × DetailVal)
deriving DecidableEq

/-- `NewValidationError` of `errors.go`: adds the `field` entry to the caller
supplied details. -/
def NewValidationError (field message : String) (details : List (String × DetailVal)) :
    ServiceError :=
  { code := .validation, message := message, details := details ++ [("field", .str field)] }

/-- `NewNotFoundError` of `errors.go`. -/
def NewNotFoundError (resource : String) : ServiceError :=
  { code := .notFound, message := resource ++ " not found",
    details := [("resource", .str resource)] }

/-- `NewConflictError` of `errors.go`. -/
def NewConflictError (resource identifier : String) : ServiceError :=
  { code := .conflict,
    message := resource ++ " '" ++ identifier ++ "' already exists",
    details := [("resource", .str resource), ("identifier", .str identifier)] }

/-- `NewInternalError` of `errors.go` (no details). -/
def NewInternalError (message : String) : ServiceError :=
  { code := .internalError, message := message, details := [] }

/-- `NewUnauthorizedError` of `errors.go` (no details). -/
def NewUnauthorizedError (message : String) : ServiceError :=
  { code := .unauthorized, message := message, details := [] }

/-- `NewExpiredError` of `errors.go`. -/
def NewExpiredError (resource : String) : ServiceError :=
  { code := .expired, message := resource ++ " has expired",
    details := [("resource", .str resource)] }

/-! ## Identifier codec (`internal/service/id_generator.go`) -/

/-- `base62Chars` of `id_generator.go`: digits, lowercase, uppercase. -/
def base62Chars : String := "0123456789abcdefghijklmnopqrstuvwxyzABCDEFGHIJKLMNOPQRSTUVWXYZ"

/-- The alphabet as a character list (all symbols are single-byte ASCII, so Go
byte indexing and character indexing coincide). -/
def base62List : List Char := base62Chars.data

/-- `base62Chars[i]` of the Go code (indexing is always in range there). -/
def base62CharAt (i : Nat) : Char := base62List.getD i ' '

/-- `strings.IndexByte(base62Chars, c)` modelled with `Option Nat` in place of
the `-1` sentinel. -/
def base62Index (c : Char) : List Char → Option Nat
  | [] => none
  | d :: ds => if d = c then some 0 else (base62Index c ds).map (· + 1)

/-- The digit loop of `EncodeNumber` for a positive argument: emits the
base-62 digits least-significant first, exactly as the Go loop writes them
before the final reversal.  (Go `int64` `%`/`/` on non-negative operands agree
with `Nat` `%`/`/`.) -/
def encodeDigits (m : Nat) : List Char :=
  if h : m = 0 then []
  else base62CharAt (m % 62) :: encodeDigits (m / 62)
termination_by m
decreasing_by exact Nat.div_lt_self (Nat.pos_of_ne_zero h) (by decide)

/-- `EncodeNumber` of `id_generator.go`.  A non-positive argument other than 0
falls through the loop and yields `""` in Go; `Int.toNat` of a negative number
is `0`, so this definition reproduces that too. -/
def EncodeNumber (num : Int) : String :=
  if num = 0 then "0"
  else String.mk (encodeDigits num.toNat).reverse

/-- The loop of `DecodeToNumber`, which walks the string from its last byte to
its first: here the input list is the reversed character list, `pos` is the
`len(encoded)-1-i` value the Go code reports on an invalid character, and
`result`/`power` are the loop accumulators. -/
def decodeRev : List Char → Nat → Int → Int → Except ServiceError Int
  | [], _, result, _ => .ok result
  | c :: cs, pos, result, power =>
    match base62Index c base62List with
    | none => .error (NewValidationError "decode_error" "Invalid character in Base62 string"
        [("character", .str (String.mk [c])), ("position", .int (Int.ofNat pos))])
    | some index => decodeRev cs (pos + 1) (result + (index : Int) * power) (power * 62)

/-- `DecodeToNumber` of `id_generator.go`. -/
def DecodeToNumber (encoded : String) : Except ServiceError Int :=
  decodeRev encoded.data.reverse 0 0 1

/-- `IsValidID` of `id_generator.go`: non-empty and every character in the
alphabet. -/
def IsValidID (id : String) : Bool :=
  if id.length = 0 then false
  else id.data.all (fun c => base62List.contains c)

/-- One call of `Generate` on a generator of length 6 (the service always
constructs `NewIDGenerator(6)`): the `attempt`-th call of the create loop
consumes alphabet indices `6*attempt .. 6*attempt+5` of the random stream. -/
def Generate (rand : Nat → Fin 62) (attempt : Nat) : String :=
  String.mk ((List.range 6).map (fun j => base62CharAt (rand (6 * attempt + j)).val))

/-! ## Domain model (`internal/domain/url.go`) -/

/-- The `URL` entity.  `time.Time` fields are `Int` instants, nullable fields
are `Option`.  `ShortURL`/`QRCodeURL` are the presentation-only derived fields
(`db:"-"`), `CreatedByAPIKey` is the owner credential (`json:"-"`). -/
structure URLRec where
  id : String
  shortURL : String
  originalURL : String
  qrCodeURL : String
  description : Option String
  expiresAt : Option Int
  createdAt : Int
  updatedAt : Int
  clickCount : Int
  isActive : Bool
  lastAccessedAt : Option Int
  createdByAPIKey : String
deriving DecidableEq

/-- `CreateURLRequest` of `url.go`. -/
structure CreateURLRequest where
  originalURL : String
  customID : Option String
  expiresAt : Option Int
  description : Option String
deriving DecidableEq

/-- `UpdateURLRequest` of `url.go`: a `none` field means "not supplied". -/
structure UpdateURLRequest where
  originalURL : Option String
  description : Option String
  expiresAt : Option Int
  isActive : Option Bool
deriving DecidableEq

/-- `PaginationMeta` of `url.go`. -/
structure PaginationMeta where
  currentPage : Int
  perPage : Int
  totalPages : Int
  totalCount : Int
  hasNext : Bool
  hasPrev : Bool
deriving DecidableEq

/-- `URLListResponse` of `url.go`. -/
structure URLListResponse where
  urls : List URLRec
  pagination : PaginationMeta
deriving DecidableEq

/-- `URLListOptions` of `url.go`. -/
structure URLListOptions where
  page : Int
  limit : Int
  sort : String
  order : String
  isActive : Option Bool
deriving DecidableEq

/-- The domain-level `ValidationError` of `url.go` (field + message;
`Error()` returns the message). -/
structure DomainValidationError where
  field : String
  message : String
deriving DecidableEq

/-- `NewURL` of `url.go`: fresh record with `is_active = true`,
`click_count = 0`, both timestamps set to `now`, owner key recorded; the
derived URL fields start empty. -/
def NewURL (id originalURL : String) (description : Option String)
    (expiresAt : Option Int) (now : Int) (apiKey : String) : URLRec :=
  { id := id, shortURL := "", originalURL := originalURL, qrCodeURL := "",
    description := description, expiresAt := expiresAt,
    createdAt := now, updatedAt := now, clickCount := 0, isActive := true,
    lastAccessedAt := none, createdByAPIKey := apiKey }

/-- `IsExpired` of `url.go`: `time.Now().After(expires_at)`, i.e. strictly
after; a record with no expiry never expires. -/
def IsExpired (u : URLRec) (now : Int) : Bool :=
  match u.expiresAt with
  | none => false
  | some t => decide (now > t)

/-- `IsAccessible` of `url.go`: active and not expired. -/
def IsAccessible (u : URLRec) (now : Int) : Bool :=
  u.isActive && !(IsExpired u now)

/-- `strings.TrimRight(baseURL, "/")`: drop every trailing `'/'`. -/
def trimTrailingSlashes (s : String) : String :=
  String.mk (s.data.reverse.dropWhile (fun c => c = '/')).reverse

/-- `BuildShortURL` of `url.go`. -/
def BuildShortURL (baseURL : String) (u : URLRec) : URLRec :=
  { u with shortURL := trimTrailingSlashes baseURL ++ "/" ++ u.id }

/-- `BuildQRCodeURL` of `url.go`. -/
def BuildQRCodeURL (baseURL : String) (u : URLRec) : URLRec :=
  { u with qrCodeURL := trimTrailingSlashes baseURL ++ "/api/v1/urls/" ++ u.id ++ "/qr" }

/-- The service always calls `BuildShortURL` then `BuildQRCodeURL`. -/
def buildDerived (baseURL : String) (u : URLRec) : URLRec :=
  BuildQRCodeURL baseURL (BuildShortURL baseURL u)

/-- The whitespace class trimmed from a custom identifier
(`strings.TrimSpace`; the common ASCII whitespace characters). -/
def isSpaceChar (c : Char) : Bool :=
  decide (c = ' ' ∨ c = '\t' ∨ c = '\n' ∨ c = '\r')

/-- `strings.TrimSpace`: drop leading and trailing whitespace. -/
def trimSpace (s : String) : String :=
  String.mk (((s.data.dropWhile isSpaceChar).reverse.dropWhile isSpaceChar).reverse)

/-- Split a character list at the first occurrence of `"://"`, returning the
part before it and the part after it. -/
def splitScheme : List Char → Option (List Char × List Char)
  | ':' :: '/' :: '/' :: rest => some ([], rest)
  | c :: rest => (splitScheme rest).map (fun p => (c :: p.1, p.2))
  | [] => none

/-- Modelled from the spec: `ValidateOriginalURL` of `url.go` delegates URI
parsing to Go's `net/url`, which is outside this repository.  Per the spec the
accepted inputs are non-empty absolute `http`/`https` URIs with a non-empty
host; scheme and host are extracted here by splitting on `"://"` and the first
`"/"` of the remainder.  The error branches keep the messages of the source. -/
def ValidateOriginalURL (rawURL : String) : Except DomainValidationError Unit :=
  if rawURL = "" then
    .error { field := "original_url", message := "URL is required" }
  else
    match splitScheme rawURL.data with
    | some (schemeChars, rest) =>
      if String.mk schemeChars = "http" ∨ String.mk schemeChars = "https" then
        if rest.takeWhile (fun c => !(c = '/')) = [] then
          .error { field := "original_url", message := "URL must have a valid host" }
        else .ok ()
      else .error { field := "original_url", message := "URL must be http or https" }
    | none => .error { field := "original_url", message := "URL must be http or https" }

/-- The character class allowed in a custom identifier: ASCII letters, digits
and the hyphen (`url.go`, rune loop of `ValidateCustomID`). -/
def allowedCustomChar (c : Char) : Bool :=
  decide (('a' ≤ c ∧ c ≤ 'z') ∨ ('A' ≤ c ∧ c ≤ 'Z') ∨ ('0' ≤ c ∧ c ≤ '9') ∨ c = '-')

/-- The reserved words of `ValidateCustomID`. -/
def reservedWords : List String := ["api", "health", "admin", "www", "app", "dev", "stage", "prod"]

/-- `strings.ToLower` restricted to the inputs that reach the reserved-word
check (they are ASCII-only, having passed the character-class check). -/
def toLowerStr (s : String) : String := String.mk (s.data.map Char.toLower)

/-- `ValidateCustomID` of `url.go`: length in `[3,50]` (byte length in Go;
every string that passes the subsequent ASCII character-class check has byte
length equal to character length, and any other string fails either way, so
character length is used here), character class, then the reserved-word scan
in source order. -/
def ValidateCustomID (customID : String) : Except DomainValidationError Unit :=
  if customID.length < 3 ∨ customID.length > 50 then
    .error { field := "custom_id", message := "Custom ID must be between 3 and 50 characters" }
  else if !(customID.data.all allowedCustomChar) then
    .error { field := "custom_id",
             message := "Custom ID can only contain letters, numbers, and hyphens" }
  else
    match reservedWords.find? (fun w => toLowerStr customID == w) with
    | some w => .error { field := "custom_id",
                         message := "Custom ID cannot use reserved word: " ++ w }
    | none => .ok ()

/-! ## Durable store (`internal/repository/postgres/url_repository.go`)

The `urls` table is a `List URLRec`; the SQL of each method is translated
row-by-row.  DB connectivity failures are not modelled (every claim treating
them concerns only the best-effort cache paths). -/

/-- Row lookup of `GetByID`: `WHERE id = $1 AND is_active = true`; `no rows`
becomes `none`. -/
def storeGetByID (store : List URLRec) (id : String) : Option URLRec :=
  store.find? (fun r => r.id == id && r.isActive)

/-- First row with the given id regardless of `is_active` (used to state frame
properties; the table's primary key makes it unique in real states). -/
def storeRow (store : List URLRec) (id : String) : Option URLRec :=
  store.find? (fun r => r.id == id)

/-- `ExistsByID`: `SELECT EXISTS(... WHERE id = $1)` — no `is_active` filter. -/
def storeExistsByID (store : List URLRec) (id : String) : Bool :=
  store.any (fun r => r.id == id)

/-- `Create`: `INSERT` fails on a duplicate primary key, which the repository
maps to an "already exists" error; the derived `db:"-"` fields are not
persisted. -/
def storeCreate (store : List URLRec) (u : URLRec) : Except Unit (List URLRec) :=
  if store.any (fun r => r.id == u.id) then .error ()
  else .ok (store ++ [{ u with shortURL := "", qrCodeURL := "" }])

/-- The column list written by the repository's `UPDATE`: everything except
`id`, `created_at` and `created_by_api_key`. -/
def storeUpdRow (u : URLRec) (x : URLRec) : URLRec :=
  if x.id == u.id then
    { x with originalURL := u.originalURL, description := u.description,
             expiresAt := u.expiresAt, updatedAt := u.updatedAt,
             clickCount := u.clickCount, isActive := u.isActive,
             lastAccessedAt := u.lastAccessedAt }
  else x

/-- `Update`: rewrites the matching row; zero rows affected is the
"not found" error. -/
def storeUpdate (store : List URLRec) (u : URLRec) : Except Unit (List URLRec) :=
  if store.any (fun r => r.id == u.id) then .ok (store.map (storeUpdRow u))
  else .error ()

/-- `Delete`: `UPDATE urls SET is_active = false, updated_at = now WHERE id`. -/
def storeDelete (store : List URLRec) (id : String) (now : Int) :
    Except Unit (List URLRec) :=
  if store.any (fun r => r.id == id) then
    .ok (store.map (fun r => if r.id == id then { r with isActive := false, updatedAt := now } else r))
  else .error ()

/-- `ORDER BY` key of `List`: the three sort columns; the repository defaults
the empty string to `created_at` (the HTTP layer only admits these three). -/
def sortKeyOf (sort : String) (r : URLRec) : Option Int :=
  if sort = "click_count" then some r.clickCount
  else if sort = "last_accessed_at" then r.lastAccessedAt
  else some r.createdAt

/-- Row comparison for `ORDER BY col asc|desc` with PostgreSQL's default
placement of SQL `NULL` (last under `asc`, first under `desc`). -/
def rowLE (sort order : String) (a b : URLRec) : Bool :=
  if order = "asc" then
    match sortKeyOf sort a, sortKeyOf sort b with
    | none, _ => false
    | some _, none => true
    | some x, some y => decide (x ≤ y)
  else
    match sortKeyOf sort a, sortKeyOf sort b with
    | none, _ => true
    | some _, none => false
    | some x, some y => decide (y ≤ x)

/-- Insertion sort implementing `ORDER BY` (SQL specifies no tie order). -/
def insertSorted (le : URLRec → URLRec → Bool) (x : URLRec) : List URLRec → List URLRec
  | [] => [x]
  | y :: ys => if le x y then x :: y :: ys else y :: insertSorted le x ys

/-- Sort of the filtered rows. -/
def sortRows (le : URLRec → URLRec → Bool) : List URLRec → List URLRec
  | [] => []
  | x :: xs => insertSorted le x (sortRows le xs)

/-- `List` of the repository: re-normalises the options, filters by owner key
and the optional `is_active` filter, counts, sorts, then applies
`LIMIT/OFFSET`. -/
def storeList (store : List URLRec) (apiKey : String) (options : URLListOptions) :
    List URLRec × Int :=
  let page := if options.page ≤ 0 then 1 else options.page
  let limit := if options.limit ≤ 0 then 20 else options.limit
  let sort := if options.sort = "" then "created_at" else options.sort
  let order := if options.order = "" then "desc" else options.order
  let filtered := store.filter (fun r =>
    r.createdByAPIKey == apiKey &&
      (match options.isActive with
       | none => true
       | some b => r.isActive == b))
  let totalCount : Int := filtered.length
  let sorted := sortRows (rowLE sort order) filtered
  let offset := (page - 1) * limit
  ((sorted.drop offset.toNat).take limit.toNat, totalCount)

/-! ## Cache (`internal/repository/redis/cache_repository.go`)

The Redis keyspace under the URL cache key is a `List (String × URLRec)`.
`SetURL` stores the JSON encoding of the record: every field round-trips
except `CreatedByAPIKey`, which carries the tag `json:"-"` and therefore comes
back as the empty string.  A failing cache call (modelled by the boolean
flag) leaves the keyspace unchanged. -/

/-- The JSON round trip a record undergoes through the cache. -/
def jsonRound (u : URLRec) : URLRec := { u with createdByAPIKey := "" }

/-- `GetURL` of the cache: a missing key (or any Redis failure) surfaces as an
error, which the service treats as a miss — modelled as `none`. -/
def cacheGetURL (cache : List (String × URLRec)) (id : String) : Option URLRec :=
  (cache.find? (fun e => e.1 == id)).map (fun e => e.2)

/-- `SetURL` of the cache (TTL not modelled; entries only disappear through
`DeleteURL` here). -/
def cacheSetURL (cache : List (String × URLRec)) (u : URLRec) (fails : Bool) :
    List (String × URLRec) :=
  if fails then cache
  else (u.id, jsonRound u) :: cache.filter (fun e => !(e.1 == u.id))

/-- `DeleteURL` of the cache. -/
def cacheDeleteURL (cache : List (String × URLRec)) (id : String) (fails : Bool) :
    List (String × URLRec) :=
  if fails then cache
  else cache.filter (fun e => !(e.1 == id))

/-! ## Resolution service (`internal/service/url_service.go`) -/

/-- The system state the service operates on: the durable table and the
cache keyspace. -/
structure SysState where
  store : List URLRec
  cache : List (String × URLRec)
deriving DecidableEq

/-- The random-id loop of `CreateShortURL`: up to 10 attempts of
`Generate` + `ExistsByID`; the first unused candidate wins. -/
def findFreshId (store : List URLRec) (rand : Nat → Fin 62) (attempt : Nat) :
    Option String :=
  if h : attempt < 10 then
    let generatedID := Generate rand attempt
    if storeExistsByID store generatedID then findFreshId store rand (attempt + 1)
    else some generatedID
  else none
termination_by 10 - attempt

/-- Identifier selection of `CreateShortURL`: the custom branch (trim,
validate, uniqueness pre-check) when a non-empty custom id is supplied,
otherwise the random loop. -/
def pickId (store : List URLRec) (req : CreateURLRequest) (rand : Nat → Fin 62) :
    Except ServiceError String :=
  match req.customID with
  | some c =>
    if c ≠ "" then
      match ValidateCustomID (trimSpace c) with
      | .error e => .error (NewValidationError "custom_id" e.message [])
      | .ok _ =>
        if storeExistsByID store (trimSpace c) then
          .error (NewConflictError "Custom ID" (trimSpace c))
        else .ok (trimSpace c)
    else
      match findFreshId store rand 0 with
      | some id => .ok id
      | none => .error (NewInternalError "Failed to generate unique ID after multiple attempts")
  | none =>
    match findFreshId store rand 0 with
    | some id => .ok id
    | none => .error (NewInternalError "Failed to generate unique ID after multiple attempts")

/-- Tail of `CreateShortURL` once the identifier is fixed: build the entity,
persist (a store-side duplicate maps to `Conflict`), then best-effort cache. -/
def createWithId (baseURL : String) (st : SysState) (req : CreateURLRequest)
    (apiKey : String) (now : Int) (cacheSetFails : Bool) (id : String) :
    Except ServiceError URLRec × SysState :=
  let url := buildDerived baseURL (NewURL id req.originalURL req.description req.expiresAt now apiKey)
  match storeCreate st.store url with
  | .error _ => (.error (NewConflictError "URL ID" id), st)
  | .ok store' =>
    (.ok url, { store := store', cache := cacheSetURL st.cache url cacheSetFails })

/-- `CreateShortURL` of `url_service.go`. -/
def CreateShortURL (baseURL : String) (st : SysState) (req : CreateURLRequest)
    (apiKey : String) (now : Int) (rand : Nat → Fin 62) (cacheSetFails : Bool) :
    Except ServiceError URLRec × SysState :=
  match ValidateOriginalURL req.originalURL with
  | .error e => (.error (NewValidationError "original_url" e.message []), st)
  | .ok _ =>
    match pickId st.store req rand with
    | .error e => (.error e, st)
    | .ok id => createWithId baseURL st req apiKey now cacheSetFails id

/-- `GetURL` of `url_service.go` (the `Resolve` operation): cache hit returns
immediately with rebuilt derived fields and **no accessibility check**; on a
miss the store row is checked for accessibility, then best-effort cached. -/
def GetURL (baseURL : String) (st : SysState) (id : String) (now : Int)
    (cacheSetFails : Bool) : Except ServiceError URLRec × SysState :=
  match cacheGetURL st.cache id with
  | some u => (.ok (buildDerived baseURL u), st)
  | none =>
    match storeGetByID st.store id with
    | none => (.error (NewNotFoundError "Short URL"), st)
    | some u =>
      if !(IsAccessible u now) then
        if IsExpired u now then (.error (NewExpiredError "Short URL"), st)
        else (.error (NewNotFoundError "Short URL"), st)
      else
        let u' := buildDerived baseURL u
        (.ok u', { st with cache := cacheSetURL st.cache u' cacheSetFails })

/-- The sequential field assignments of `UpdateURL` (applied after the
original-URL re-validation): only supplied fields change, plus
`updated_at = now`. -/
def applyPatch (r : URLRec) (req : UpdateURLRequest) (now : Int) : URLRec :=
  { r with
    originalURL := match req.originalURL with | some ou => ou | none => r.originalURL,
    description := match req.description with | some d => some d | none => r.description,
    expiresAt := match req.expiresAt with | some t => some t | none => r.expiresAt,
    isActive := match req.isActive with | some b => b | none => r.isActive,
    updatedAt := now }

/-- `UpdateURL` of `url_service.go`. -/
def UpdateURL (baseURL : String) (st : SysState) (id : String)
    (req : UpdateURLRequest) (apiKey : String) (now : Int) (cacheDelFails : Bool) :
    Except ServiceError URLRec × SysState :=
  match storeGetByID st.store id with
  | none => (.error (NewNotFoundError "Short URL"), st)
  | some url =>
    if url.createdByAPIKey ≠ apiKey then
      (.error (NewUnauthorizedError "You don't have permission to update this URL"), st)
    else
      match req.originalURL with
      | some ou =>
        match ValidateOriginalURL ou with
        | .error e => (.error (NewValidationError "original_url" e.message []), st)
        | .ok _ =>
          match storeUpdate st.store (applyPatch url req now) with
          | .error _ => (.error (NewInternalError "Failed to update URL"), st)
          | .ok store' =>
            (.ok (buildDerived baseURL (applyPatch url req now)),
             { store := store', cache := cacheDeleteURL st.cache id cacheDelFails })
      | none =>
        match storeUpdate st.store (applyPatch url req now) with
        | .error _ => (.error (NewInternalError "Failed to update URL"), st)
        | .ok store' =>
          (.ok (buildDerived baseURL (applyPatch url req now)),
           { store := store', cache := cacheDeleteURL st.cache id cacheDelFails })

/-- `DeleteURL` of `url_service.go` (soft delete + cache invalidation). -/
def DeleteURL (st : SysState) (id : String) (apiKey : String) (now : Int)
    (cacheDelFails : Bool) : Except ServiceError Unit × SysState :=
  match storeGetByID st.store id with
  | none => (.error (NewNotFoundError "Short URL"), st)
  | some url =>
    if url.createdByAPIKey ≠ apiKey then
      (.error (NewUnauthorizedError "You don't have permission to delete this URL"), st)
    else
      match storeDelete st.store id now with
      | .error _ => (.error (NewInternalError "Failed to delete URL"), st)
      | .ok store' => (.ok (), { store := store', cache := cacheDeleteURL st.cache id cacheDelFails })

/-- `GetURLStats` of `url_service.go`: store lookup, owner check, derived
fields rebuilt — no accessibility check and no cache interaction. -/
def GetURLStats (baseURL : String) (st : SysState) (id : String) (apiKey : String) :
    Except ServiceError URLRec × SysState :=
  match storeGetByID st.store id with
  | none => (.error (NewNotFoundError "Short URL"), st)
  | some url =>
    if url.createdByAPIKey ≠ apiKey then
      (.error (NewUnauthorizedError "You don't have permission to view this URL's stats"), st)
    else (.ok (buildDerived baseURL url), st)

/-- `ListURLs` of `url_service.go`: normalise page and limit, query the
repository, rebuild derived fields, compute pagination metadata. -/
def ListURLs (baseURL : String) (st : SysState) (apiKey : String)
    (options : URLListOptions) : Except ServiceError URLListResponse :=
  let page := if options.page ≤ 0 then 1 else options.page
  let limit0 := if options.limit ≤ 0 then 20 else options.limit
  let limit := if limit0 > 100 then 100 else limit0
  let opts := { options with page := page, limit := limit }
  let res := storeList st.store apiKey opts
  let urls := res.1.map (buildDerived baseURL)
  let totalCount := res.2
  let totalPages0 := (totalCount + limit - 1) / limit
  let totalPages := if totalPages0 = 0 then 1 else totalPages0
  .ok { urls := urls,
        pagination := { currentPage := page, perPage := limit, totalPages := totalPages,
                        totalCount := totalCount,
                        hasNext := decide (page < totalPages),
                        hasPrev := decide (page > 1) } }

/-- Projection used to state pagination claims without binders over the
response. -/
def paginationOf (r : Except ServiceError URLListResponse) : PaginationMeta :=
  match r with
  | .ok resp => resp.pagination
  | .error _ => { currentPage := 0, perPage := 0, totalPages := 0, totalCount := 0,
                  hasNext := false, hasPrev := false }

/-- The spec's wording of a malformed trimmed custom identifier: length
outside `[3,50]`, a character that is not an ASCII letter, digit or hyphen, or
a case-insensitive match with a reserved word.  Compared against the
source-translated `ValidateCustomID` in the C4 theorem. -/
def specBadCustomID (t : String) : Prop :=
  t.length < 3 ∨ t.length > 50 ∨ (∃ c ∈ t.data, allowedCustomChar c = false) ∨
    toLowerStr t ∈ reservedWords

instance (t : String) : Decidable (specBadCustomID t) := by
  unfold specBadCustomID
  infer_instance

/-- The pagination metadata returned by `ListURLs` (the list call cannot fail
in this model, so the projection is total). -/
def listMeta (baseURL : String) (st : SysState) (apiKey : String)
    (options : URLListOptions) : PaginationMeta :=
  paginationOf (ListURLs baseURL st apiKey options)

/-! ## Concrete fixtures for witnesses and counterexamples -/

/-- A degenerate random stream (draws are irrelevant for custom-id runs). -/
def rand0 : Nat → Fin 62 := fun _ => 0

/-- Empty table, empty cache. -/
def emptyState : SysState := { store := [], cache := [] }

/-- Base URL used in concrete runs. -/
def baseW : String := "https://sho.rt"

/-- A create request whose expiry (instant 20) will already have passed when
the record is resolved at instant 30. -/
def c1req : CreateURLRequest :=
  { originalURL := "https://example.com/x", customID := some "abcde",
    expiresAt := some 20, description := none }

/-- The state reached from the empty state by a successful `CreateShortURL`
of `c1req` at instant 10 (cache write succeeds). -/
def c1state : SysState := (CreateShortURL baseW emptyState c1req "k" 10 rand0 false).2

/-- The record the cache holds in `c1state` (owner key stripped by the JSON
round trip, derived fields as built at creation). -/
def c1cached : URLRec :=
  { id := "abcde", shortURL := "https://sho.rt/abcde",
    originalURL := "https://example.com/x",
    qrCodeURL := "https://sho.rt/api/v1/urls/abcde/qr",
    description := none, expiresAt := some 20, createdAt := 10, updatedAt := 10,
    clickCount := 0, isActive := true, lastAccessedAt := none, createdByAPIKey := "" }

/-- An expired-but-active stored row (for the C1 witness). -/
def c1recA : URLRec :=
  { id := "idA", shortURL := "", originalURL := "https://example.com/a",
    qrCodeURL := "", description := none, expiresAt := some 5, createdAt := 1,
    updatedAt := 1, clickCount := 0, isActive := true, lastAccessedAt := none,
    createdByAPIKey := "k" }

/-- A soft-deleted stored row (for the C1 witness). -/
def c1recB : URLRec :=
  { c1recA with id := "idB", expiresAt := none, isActive := false }

/-- A stored row occupying the (constant) candidate id of `rand0`. -/
def c3row : URLRec :=
  { id := "000000", shortURL := "", originalURL := "https://example.com/x",
    qrCodeURL := "", description := none, expiresAt := none, createdAt := 1,
    updatedAt := 1, clickCount := 0, isActive := true, lastAccessedAt := none,
    createdByAPIKey := "k" }

/-- A create request without a custom identifier. -/
def c3req : CreateURLRequest :=
  { originalURL := "https://example.com/x", customID := none,
    expiresAt := none, description := none }

/-- A create request with the well-formed length-3 custom identifier "abc". -/
def c4req : CreateURLRequest :=
  { originalURL := "https://example.com/x", customID := some "abc",
    expiresAt := none, description := none }

/-- A create request with custom identifier "mylink" and no expiry. -/
def c5req : CreateURLRequest :=
  { originalURL := "https://example.com/x", customID := some "mylink",
    expiresAt := none, description := none }

/-- The record returned by a successful create of `c5req` at instant 10. -/
def c5rec : URLRec :=
  { id := "mylink", shortURL := "https://sho.rt/mylink",
    originalURL := "https://example.com/x",
    qrCodeURL := "https://sho.rt/api/v1/urls/mylink/qr",
    description := none, expiresAt := none, createdAt := 10, updatedAt := 10,
    clickCount := 0, isActive := true, lastAccessedAt := none, createdByAPIKey := "k" }

/-- The state reached by that create from the empty state. -/
def c5st : SysState :=
  { store := [{ c5rec with shortURL := "", qrCodeURL := "" }],
    cache := [("mylink", { c5rec with createdByAPIKey := "" })] }

/-- A stored row owned by `"k"` with creation instant `i`. -/
def mkRow (i : Nat) : URLRec :=
  { id := "u" ++ toString i, shortURL := "", originalURL := "https://example.com/x",
    qrCodeURL := "", description := none, expiresAt := none, createdAt := (i : Int),
    updatedAt := (i : Int), clickCount := 0, isActive := true, lastAccessedAt := none,
    createdByAPIKey := "k" }

/-- A table of 95 rows owned by `"k"`. -/
def store95 : List URLRec := (List.range 95).map mkRow

/-- List options asking for page 5 with limit 20. -/
def opts95 : URLListOptions :=
  { page := 5, limit := 20, sort := "", order := "", isActive := none }

/-- List options leaving every field at its zero value. -/
def optsDefault : URLListOptions :=
  { page := 0, limit := 0, sort := "", order := "", isActive := none }

/-- A stored row with some click history (for the C8 witness). -/
def c8rec : URLRec :=
  { id := "w8a", shortURL := "", originalURL := "https://example.com/old",
    qrCodeURL := "", description := none, expiresAt := none, createdAt := 1,
    updatedAt := 1, clickCount := 7, isActive := true, lastAccessedAt := some 3,
    createdByAPIKey := "k" }

/-- A patch supplying every updatable field. -/
def c8req : UpdateURLRequest :=
  { originalURL := some "https://example.com/new", description := some "d",
    expiresAt := some 99, isActive := some true }

/-- A state holding `c8rec` in the table and in the cache. -/
def c8st : SysState := { store := [c8rec], cache := [("w8a", c8rec)] }

/-- An expired-but-active row owned by `"k"` (for the C10 witness). -/
def c10rec : URLRec :=
  { id := "s10", shortURL := "", originalURL := "https://example.com/x",
    qrCodeURL := "", description := none, expiresAt := some 5, createdAt := 1,
    updatedAt := 1, clickCount := 0, isActive := true, lastAccessedAt := none,
    createdByAPIKey := "k" }

/-- A soft-deleted row owned by `"k"` (for the C10 witness). -/
def c10recB : URLRec := { c10rec with id := "s10b", isActive := false }

/-! ## Codec lemmas -/

theorem base62Index_charAt (d : Nat) (hd : d < 62) :
    base62Index (base62CharAt d) base62List = some d := by
  revert d
  decide

theorem base62Index_isSome_charAt (d : Nat) (hd : d < 62) :
    (base62Index (base62CharAt d) base62List).isSome = true := by
  rw [base62Index_charAt d hd]
  rfl

/-- Decoding the little-endian digit list of `m` adds `m * power` to the
accumulator. -/
theorem decodeRev_encodeDigits (m : Nat) :
    ∀ pos : Nat, ∀ result power : Int,
      decodeRev (encodeDigits m) pos result power = .ok (result + m * power) := by
  induction m using Nat.strong_induction_on with
  | _ m ih =>
    intro pos result power
    by_cases h : m = 0
    · subst h
      rw [encodeDigits]
      simp [decodeRev]
    · rw [encodeDigits]
      simp only [h, dite_false]
      rw [decodeRev, base62Index_charAt (m % 62) (Nat.mod_lt m (by decide))]
      dsimp only
      rw [ih (m / 62) (Nat.div_lt_self (Nat.pos_of_ne_zero h) (by decide))]
      have hsum : ((m % 62 : Nat) : Int) + 62 * ((m / 62 : Nat) : Int) = (m : Int) := by
        push_cast
        omega
      congr 1
      linear_combination power * hsum

/-- Every character emitted by `encodeDigits` lies in the alphabet. -/
theorem encodeDigits_mem_alphabet (m : Nat) :
    ∀ c ∈ encodeDigits m, (base62Index c base62List).isSome = true := by
  induction m using Nat.strong_induction_on with
  | _ m ih =>
    intro c hc
    by_cases h : m = 0
    · subst h; rw [encodeDigits] at hc; simp at hc
    · rw [encodeDigits] at hc
      simp only [h, dite_false, List.mem_cons] at hc
      rcases hc with hc | hc
      · subst hc
        exact base62Index_isSome_charAt _ (Nat.mod_lt m (by decide))
      · exact ih (m / 62) (Nat.div_lt_self (Nat.pos_of_ne_zero h) (by decide)) c hc

/-- Folding the most-significant-first digit list as `a * 62 + digit`
reconstructs the encoded number. -/
theorem foldl_encodeDigits_reverse (m : Nat) :
    ∀ a : Int,
      (encodeDigits m).reverse.foldl
          (fun a c => a * 62 + (((base62Index c base62List).getD 0 : Nat) : Int)) a
        = a * 62 ^ (encodeDigits m).length + m := by
  induction m using Nat.strong_induction_on with
  | _ m ih =>
    intro a
    by_cases h : m = 0
    · subst h
      rw [encodeDigits]
      simp
    · rw [encodeDigits]
      simp only [h, dite_false]
      rw [List.reverse_cons, List.foldl_append]
      rw [ih (m / 62) (Nat.div_lt_self (Nat.pos_of_ne_zero h) (by decide))]
      simp only [List.foldl_cons, List.foldl_nil, List.length_cons]
      rw [base62Index_charAt (m % 62) (Nat.mod_lt m (by decide))]
      have hsum : ((m / 62 : Nat) : Int) * 62 + ((m % 62 : Nat) : Int) = (m : Int) := by
        push_cast
        omega
      have hpow : (62 : Int) ^ ((encodeDigits (m / 62)).length + 1)
          = 62 ^ (encodeDigits (m / 62)).length * 62 := by
        ring
      rw [hpow]
      simp only [Option.getD_some]
      linear_combination hsum

/-- If every character of the (reversed) input is in the alphabet, the decode
loop succeeds. -/
theorem decodeRev_ok_of_valid (l : List Char) :
    ∀ pos : Nat, ∀ result power : Int,
      (∀ c ∈ l, (base62Index c base62List).isSome = true) →
        ∃ n, decodeRev l pos result power = .ok n := by
  induction l with
  | nil => intro pos result power _; exact ⟨result, rfl⟩
  | cons c cs ih =>
    intro pos result power hall
    have hc : (base62Index c base62List).isSome = true := hall c (List.mem_cons_self c cs)
    rcases Option.isSome_iff_exists.mp hc with ⟨i, hi⟩
    rw [decodeRev, hi]
    exact ih (pos + 1) _ _ (fun d hd => hall d (List.mem_cons_of_mem c hd))

/-- If position `k` of the (reversed) input holds the first character outside
the alphabet, the decode loop fails with exactly the error the Go code builds:
character `c` and reported position `pos + k`. -/
theorem decodeRev_error_at (l : List Char) :
    ∀ pos : Nat, ∀ result power : Int, ∀ k : Nat, ∀ c : Char,
      l.get? k = some c →
      (l.take k).all (fun d => (base62Index d base62List).isSome) = true →
      base62Index c base62List = none →
        decodeRev l pos result power
          = .error (NewValidationError "decode_error" "Invalid character in Base62 string"
              [("character", .str (String.mk [c])), ("position", .int (Int.ofNat (pos + k)))]) := by
  induction l with
  | nil => intro pos result power k c hk; simp at hk
  | cons x xs ih =>
    intro pos result power k c hk hprev hc
    cases k with
    | zero =>
      simp only [List.get?] at hk
      cases hk
      rw [decodeRev, hc]
      simp
    | succ k' =>
      rw [List.take_succ_cons, List.all_cons, Bool.and_eq_true] at hprev
      rcases Option.isSome_iff_exists.mp hprev.1 with ⟨i, hi⟩
      rw [decodeRev, hi]
      dsimp only
      have := ih (pos + 1) (result + (i : Int) * power) (power * 62) k' c hk hprev.2 hc
      rw [this]
      have harith : pos + 1 + k' = pos + (k' + 1) := by omega
      rw [harith]

/-! ## Claim C2 -/

/-- C2: for every integer `n ≥ 0` in the `int64` domain of the source,
`DecodeToNumber (EncodeNumber n)` returns `n` without error; `EncodeNumber`
produces the base-62 representation over the alphabet (every output character
is an alphabet symbol and folding the digits most-significant first as
`acc * 62 + digit` reconstructs `n`); and `EncodeNumber 0 = "0"`. -/
theorem C2_encode_decode_roundtrip (n : Int) (h0 : 0 ≤ n) (h1 : n < 2 ^ 63) :
    DecodeToNumber (EncodeNumber n) = .ok n ∧
    EncodeNumber 0 = "0" ∧
    (EncodeNumber n).data.foldl
        (fun a c => a * 62 + (((base62Index c base62List).getD 0 : Nat) : Int)) 0 = n ∧
    ∀ c ∈ (EncodeNumber n).data, (base62Index c base62List).isSome = true := by
  by_cases hn : n = 0
  · subst hn
    refine ⟨by decide, rfl, by decide, ?_⟩
    intro c hc
    simp only [EncodeNumber, if_pos rfl] at hc
    have : c = '0' := by
      simpa using hc
    subst this
    decide
  · have hdata : (EncodeNumber n).data = (encodeDigits n.toNat).reverse := by
      simp [EncodeNumber, hn]
    refine ⟨?_, rfl, ?_, ?_⟩
    · unfold DecodeToNumber
      rw [hdata, List.reverse_reverse, decodeRev_encodeDigits]
      rw [Int.toNat_of_nonneg h0]
      norm_num
    · rw [hdata, foldl_encodeDigits_reverse]
      rw [Int.toNat_of_nonneg h0]
      norm_num
    · intro c hc
      rw [hdata, List.mem_reverse] at hc
      exact encodeDigits_mem_alphabet n.toNat c hc

/-- Witness for C2 at the concrete input `n = 123456789`. -/
theorem C2_witness :
    0 ≤ (123456789 : Int) ∧ (123456789 : Int) < 2 ^ 63 ∧
    (DecodeToNumber (EncodeNumber 123456789) = .ok 123456789 ∧
     EncodeNumber 0 = "0" ∧
     (EncodeNumber 123456789).data.foldl
         (fun a c => a * 62 + (((base62Index c base62List).getD 0 : Nat) : Int)) 0
       = 123456789 ∧
     ∀ c ∈ (EncodeNumber 123456789).data, (base62Index c base62List).isSome = true) :=
  ⟨by decide, by decide, C2_encode_decode_roundtrip 123456789 (by decide) (by decide)⟩

/-! ## Claim C6 -/

/-- C6 (amended): a string made entirely of alphabet characters decodes
successfully; a string with a character outside the alphabet fails with the
`InvalidCharacter` validation error naming the *rightmost* offending character
and its position counted from the *end* of the string (position `k` refers to
index `length - 1 - k`, i.e. index `k` of the reversed string), not its
position from the start. -/
theorem C6_decode_invalid_char (s : String) :
    ((∀ c ∈ s.data, (base62Index c base62List).isSome = true) →
        ∃ n, DecodeToNumber s = .ok n) ∧
    (∀ k : Nat, ∀ c : Char, s.data.reverse.get? k = some c →
        (s.data.reverse.take k).all (fun d => (base62Index d base62List).isSome) = true →
        base62Index c base62List = none →
        DecodeToNumber s
          = .error (NewValidationError "decode_error" "Invalid character in Base62 string"
              [("character", .str (String.mk [c])), ("position", .int (Int.ofNat k))])) := by
  constructor
  · intro hall
    exact decodeRev_ok_of_valid s.data.reverse 0 0 1
      (fun c hc => hall c (List.mem_reverse.mp hc))
  · intro k c hk hprev hc
    have := decodeRev_error_at s.data.reverse 0 0 1 k c hk hprev hc
    rw [DecodeToNumber, this, Nat.zero_add]

/-- Witness for C6 (amended): `"ab"` decodes successfully, and `"$aa"` fails
with character `"$"` reported at position 2 (its distance from the end). -/
theorem C6_witness :
    (∃ n, DecodeToNumber "ab" = .ok n) ∧
    DecodeToNumber "$aa"
      = .error (NewValidationError "decode_error" "Invalid character in Base62 string"
          [("character", .str "$"), ("position", .int (Int.ofNat 2))]) :=
  ⟨(C6_decode_invalid_char "ab").1 (by decide),
   (C6_decode_invalid_char "$aa").2 2 '$' (by decide) (by decide) (by decide)⟩

/-- Counterexample to C6 as stated: on input `"$aa"` the reported position is
2, but the character at index 2 of the string is `'a'`, which lies in the
alphabet; the offending character `'$'` sits at index 0.  The reported number
is the distance from the end of the string, not the position in the string. -/
theorem C6_counterexample :
    DecodeToNumber "$aa"
      = .error (NewValidationError "decode_error" "Invalid character in Base62 string"
          [("character", .str "$"), ("position", .int (Int.ofNat 2))]) ∧
    "$aa".data.get? 2 = some 'a' ∧
    (base62Index 'a' base62List).isSome = true ∧
    "$aa".data.get? 0 = some '$' ∧
    base62Index '$' base62List = none ∧
    (0 : Nat) ≠ 2 := by
  decide

/-! ## Store and cache lemmas -/

theorem find?_append_left_none {α : Type} (p : α → Bool) (l1 l2 : List α)
    (h : l1.find? p = none) : (l1 ++ l2).find? p = l2.find? p := by
  rw [List.find?_append, h, Option.none_or]

/-- A row absent from the table (by `ExistsByID`) is absent from the
`GetByID` lookup. -/
theorem storeGetByID_eq_none_of_not_exists (store : List URLRec) (id : String)
    (h : storeExistsByID store id = false) : storeGetByID store id = none := by
  rw [storeGetByID, List.find?_eq_none]
  intro x hx hcontra
  simp only [Bool.and_eq_true] at hcontra
  exact absurd hcontra.1 (List.any_eq_false.mp h x hx)

/-- Facts recovered from a successful `GetByID`: the row matches the id and is
active. -/
theorem storeGetByID_spec (store : List URLRec) (id : String) (r : URLRec)
    (h : storeGetByID store id = some r) : r.id = id ∧ r.isActive = true := by
  have hp := List.find?_some h
  simp only [Bool.and_eq_true, beq_iff_eq] at hp
  exact hp

/-- A row found by `GetByID` makes the id-existence scan succeed. -/
theorem storeAny_of_getByID (store : List URLRec) (id : String) (r : URLRec)
    (h : storeGetByID store id = some r) :
    store.any (fun x => x.id == r.id) = true := by
  refine List.any_eq_true.mpr ⟨r, List.mem_of_find?_eq_some h, ?_⟩
  simp

/-- After a cache invalidation, the cache lookup misses. -/
theorem cacheGetURL_filter_self (cache : List (String × URLRec)) (id : String) :
    cacheGetURL (cache.filter (fun e => !(e.1 == id))) id = none := by
  rw [cacheGetURL]
  have hnone : (cache.filter (fun e => !(e.1 == id))).find? (fun e => e.1 == id) = none := by
    rw [List.find?_eq_none]
    intro x hx
    have := List.of_mem_filter hx
    simp_all
  rw [hnone]
  rfl

/-! ## Random-id loop lemmas -/

/-- Every generated candidate has exactly 6 symbols. -/
theorem Generate_length (rand : Nat → Fin 62) (attempt : Nat) :
    (Generate rand attempt).length = 6 := by
  simp [Generate, String.length]

/-- Every symbol of a generated candidate lies in the alphabet. -/
theorem Generate_chars (rand : Nat → Fin 62) (attempt : Nat) :
    ∀ c ∈ (Generate rand attempt).data, (base62Index c base62List).isSome = true := by
  intro c hc
  simp only [Generate, List.mem_map, List.mem_range] at hc
  obtain ⟨j, _, rfl⟩ := hc
  exact base62Index_isSome_charAt _ (rand (6 * attempt + j)).isLt

/-- If every remaining candidate collides, the loop returns none. -/
theorem findFreshId_eq_none (store : List URLRec) (rand : Nat → Fin 62) :
    ∀ k a : Nat, 10 - a ≤ k →
      (∀ i, a ≤ i → i < 10 → storeExistsByID store (Generate rand i) = true) →
      findFreshId store rand a = none := by
  intro k
  induction k with
  | zero =>
    intro a ha _
    rw [findFreshId]
    have hna : ¬ a < 10 := by omega
    simp [hna]
  | succ k ih =>
    intro a ha hall
    by_cases hlt : a < 10
    · rw [findFreshId, dif_pos hlt]
      simp only [hall a le_rfl hlt, if_true]
      exact ih (a + 1) (by omega) (fun i hi h2 => hall i (by omega) h2)
    · rw [findFreshId]
      simp [hlt]

/-- The loop returns the first non-colliding candidate. -/
theorem findFreshId_eq_some (store : List URLRec) (rand : Nat → Fin 62) :
    ∀ k a i : Nat, i - a ≤ k → a ≤ i → i < 10 →
      storeExistsByID store (Generate rand i) = false →
      (∀ j, a ≤ j → j < i → storeExistsByID store (Generate rand j) = true) →
      findFreshId store rand a = some (Generate rand i) := by
  intro k
  induction k with
  | zero =>
    intro a i hk hai hi hfresh _
    have hae : a = i := by omega
    subst hae
    rw [findFreshId, dif_pos hi]
    simp [hfresh]
  | succ k ih =>
    intro a i hk hai hi hfresh hprev
    by_cases hae : a = i
    · subst hae
      rw [findFreshId, dif_pos hi]
      simp [hfresh]
    · have halt : a < i := by omega
      rw [findFreshId, dif_pos (by omega : a < 10)]
      simp only [hprev a le_rfl halt, if_true]
      exact ih (a + 1) i (by omega) (by omega) hi hfresh (fun j h1 h2 => hprev j (by omega) h2)

/-! ## Claim C1 -/

/-- C1 (amended): the accessibility guarantee holds on the cache-miss path:
when the cache has no entry for `id`, a stored row that is expired (its
`is_active` being necessarily true, since the store lookup filters on it)
resolves with `Expired`, and an id whose rows are all soft-deleted resolves
with `NotFound`.  On a cache hit `GetURL` returns the cached record with no
accessibility check, so the claim's "regardless of the cache" part fails
(see the counterexample). -/
theorem C1_resolve_accessibility (baseURL : String) (st : SysState) (id : String)
    (now : Int) (f : Bool) (hmiss : cacheGetURL st.cache id = none) :
    (∀ r, storeGetByID st.store id = some r → IsExpired r now = true →
        (GetURL baseURL st id now f).1 = .error (NewExpiredError "Short URL")) ∧
    ((∀ u ∈ st.store, u.id = id → u.isActive = false) →
        (GetURL baseURL st id now f).1 = .error (NewNotFoundError "Short URL")) := by
  constructor
  · intro r hr hexp
    have hacc : IsAccessible r now = false := by
      simp [IsAccessible, hexp]
    simp [GetURL, hmiss, hr, hacc, hexp]
  · intro hall
    have hnone : storeGetByID st.store id = none := by
      rw [storeGetByID, List.find?_eq_none]
      intro x hx hcontra
      simp only [Bool.and_eq_true, beq_iff_eq] at hcontra
      rw [hall x hx hcontra.1] at hcontra
      exact Bool.false_ne_true hcontra.2
    simp [GetURL, hmiss, hnone]

/-- Witness for C1 (amended): an expired active row resolves `Expired`, a
soft-deleted row resolves `NotFound`, both on an empty cache. -/
theorem C1_witness :
    (GetURL baseW { store := [c1recA], cache := [] } "idA" 10 false).1
      = .error (NewExpiredError "Short URL") ∧
    (GetURL baseW { store := [c1recB], cache := [] } "idB" 10 false).1
      = .error (NewNotFoundError "Short URL") :=
  ⟨(C1_resolve_accessibility baseW { store := [c1recA], cache := [] } "idA" 10 false
      (by decide)).1 c1recA (by decide) (by decide),
   (C1_resolve_accessibility baseW { store := [c1recB], cache := [] } "idB" 10 false
      (by decide)).2 (by decide)⟩

/-- Counterexample to C1 as stated: starting from the empty state, `Create`
at instant 10 stores and caches a record expiring at instant 20; resolving it
at instant 30 — a reachable state in which the record is expired and active
and still cached — returns the record from the cache instead of the `Expired`
error the claim requires. -/
theorem C1_counterexample :
    (GetURL baseW c1state "abcde" 30 false).1 = .ok c1cached ∧
    cacheGetURL c1state.cache "abcde" = some c1cached ∧
    IsExpired c1cached 30 = true ∧
    c1cached.isActive = true ∧
    storeGetByID c1state.store "abcde"
      = some { c1cached with shortURL := "", qrCodeURL := "", createdByAPIKey := "k" } := by
  decide

/-! ## Create-path lemmas -/

/-- `createWithId` on a fresh identifier: the entity is persisted (derived
fields stripped), best-effort cached, and returned. -/
theorem createWithId_fresh (baseURL : String) (st : SysState) (req : CreateURLRequest)
    (apiKey : String) (now : Int) (f : Bool) (id : String)
    (hfree : storeExistsByID st.store id = false) :
    createWithId baseURL st req apiKey now f id
      = (.ok (buildDerived baseURL (NewURL id req.originalURL req.description req.expiresAt now apiKey)),
         { store := st.store ++
             [{ buildDerived baseURL (NewURL id req.originalURL req.description req.expiresAt now apiKey) with
                  shortURL := "", qrCodeURL := "" }],
           cache := cacheSetURL st.cache
             (buildDerived baseURL (NewURL id req.originalURL req.description req.expiresAt now apiKey)) f }) := by
  rw [storeExistsByID] at hfree
  simp [createWithId, storeCreate, buildDerived, BuildShortURL, BuildQRCodeURL, NewURL, hfree]

/-- `GetByID` finds a freshly appended active row. -/
theorem storeGetByID_append_self (store : List URLRec) (u : URLRec)
    (hfree : storeExistsByID store u.id = false) (hact : u.isActive = true) :
    storeGetByID (store ++ [u]) u.id = some u := by
  have hnone : store.find? (fun r => r.id == u.id && r.isActive) = none := by
    have := storeGetByID_eq_none_of_not_exists store u.id hfree
    rw [storeGetByID] at this
    exact this
  rw [storeGetByID, find?_append_left_none _ _ _ hnone]
  simp [List.find?, hact]

/-- The source-translated custom-id validator accepts exactly the identifiers
the spec's wording calls well-formed. -/
theorem validateCustomID_ok_iff (t : String) :
    ValidateCustomID t = .ok () ↔ ¬ specBadCustomID t := by
  rw [ValidateCustomID]
  by_cases h1 : t.length < 3 ∨ t.length > 50
  · rw [if_pos h1]
    constructor
    · intro h; exact absurd h (by simp)
    · intro hn
      exact absurd (show specBadCustomID t from
        Or.elim h1 (fun h => Or.inl h) (fun h => Or.inr (Or.inl h))) hn
  · rw [if_neg h1]
    by_cases h2 : t.data.all allowedCustomChar = true
    · rw [if_neg (by simp [h2])]
      cases hf : reservedWords.find? (fun w => toLowerStr t == w) with
      | some w =>
        constructor
        · intro h; exact absurd h (by simp)
        · intro hn
          have hw := List.find?_some hf
          have hmem := List.mem_of_find?_eq_some hf
          rw [beq_iff_eq] at hw
          exact absurd (show specBadCustomID t from
            Or.inr (Or.inr (Or.inr (hw ▸ hmem)))) hn
      | none =>
        constructor
        · intro _
          intro hbad
          rcases hbad with h | h | h | h
          · exact h1 (Or.inl h)
          · exact h1 (Or.inr h)
          · rcases h with ⟨c, hc, hbadc⟩
            have := List.all_eq_true.mp h2 c hc
            rw [this] at hbadc
            exact Bool.true_eq_false_eq_False hbadc
          · exact List.find?_eq_none.mp hf _ h (by simp)
        · intro _; rfl
    · have h2f : t.data.all allowedCustomChar = false := by
        cases hall : t.data.all allowedCustomChar
        · rfl
        · exact absurd hall h2
      rw [if_pos (by simp [h2f])]
      constructor
      · intro h; exact absurd h (by simp)
      · intro hn
        rcases List.all_eq_false.mp h2f with ⟨c, hc, hbadc⟩
        have hfalse : allowedCustomChar c = false := by
          cases hac : allowedCustomChar c
          · rfl
          · exact absurd hac hbadc
        exact absurd (show specBadCustomID t from
          Or.inr (Or.inr (Or.inl ⟨c, hc, hfalse⟩))) hn

/-- A successful cache write is immediately visible to the cache lookup. -/
theorem cacheGetURL_setURL_self (cache : List (String × URLRec)) (u : URLRec) :
    cacheGetURL (cacheSetURL cache u false) u.id = some (jsonRound u) := by
  simp [cacheGetURL, cacheSetURL, List.find?]

/-! ## Claim C3 -/

/-- C3: without a custom identifier, `Create` runs at most 10 rounds of
{generate 6-symbol candidate, check existence in the durable store}; each
candidate has 6 alphabet symbols; the first candidate absent from the store
becomes the persisted record's id; if all 10 candidates are present, `Create`
fails with `InternalError` and the state (in particular the store) is
unchanged. -/
theorem C3_random_id_allocation (baseURL : String) (st : SysState)
    (req : CreateURLRequest) (apiKey : String) (now : Int) (rand : Nat → Fin 62)
    (f : Bool) (hc : req.customID = none)
    (hurl : ValidateOriginalURL req.originalURL = .ok ()) :
    (∀ i : Nat, (Generate rand i).length = 6 ∧
        ∀ c ∈ (Generate rand i).data, (base62Index c base62List).isSome = true) ∧
    ((∀ i, i < 10 → storeExistsByID st.store (Generate rand i) = true) →
        CreateShortURL baseURL st req apiKey now rand f
          = (.error (NewInternalError "Failed to generate unique ID after multiple attempts"), st)) ∧
    (∀ i, i < 10 → storeExistsByID st.store (Generate rand i) = false →
        (∀ j, j < i → storeExistsByID st.store (Generate rand j) = true) →
        ∃ r st', CreateShortURL baseURL st req apiKey now rand f = (.ok r, st') ∧
          r.id = Generate rand i ∧
          storeGetByID st'.store (Generate rand i)
            = some { r with shortURL := "", qrCodeURL := "" }) := by
  refine ⟨fun i => ⟨Generate_length rand i, Generate_chars rand i⟩, ?_, ?_⟩
  · intro hall
    have hnone : findFreshId st.store rand 0 = none :=
      findFreshId_eq_none st.store rand 10 0 (by omega) (fun i _ h2 => hall i h2)
    simp [CreateShortURL, hurl, pickId, hc, hnone]
  · intro i hi hfresh hprev
    have hsome : findFreshId st.store rand 0 = some (Generate rand i) :=
      findFreshId_eq_some st.store rand i 0 i (by omega) (by omega) hi hfresh
        (fun j _ h2 => hprev j h2)
    have hred : CreateShortURL baseURL st req apiKey now rand f
        = createWithId baseURL st req apiKey now f (Generate rand i) := by
      simp [CreateShortURL, hurl, pickId, hc, hsome]
    rw [hred, createWithId_fresh baseURL st req apiKey now f (Generate rand i) hfresh]
    refine ⟨_, _, rfl, rfl, ?_⟩
    exact storeGetByID_append_self st.store _ hfresh rfl

/-- Witness for C3: with the constant random stream `rand0` every candidate is
`"000000"`; a store occupying that id exhausts all 10 rounds and fails with
`InternalError` leaving the state unchanged, while the empty store accepts the
first candidate. -/
theorem C3_witness :
    (CreateShortURL baseW { store := [c3row], cache := [] } c3req "k" 5 rand0 false
      = (.error (NewInternalError "Failed to generate unique ID after multiple attempts"),
         { store := [c3row], cache := [] })) ∧
    (∃ r st', CreateShortURL baseW emptyState c3req "k" 5 rand0 false = (.ok r, st') ∧
      r.id = Generate rand0 0 ∧
      storeGetByID st'.store (Generate rand0 0)
        = some { r with shortURL := "", qrCodeURL := "" }) :=
  ⟨(C3_random_id_allocation baseW { store := [c3row], cache := [] } c3req "k" 5 rand0 false
      rfl (by decide)).2.1 (by decide),
   (C3_random_id_allocation baseW emptyState c3req "k" 5 rand0 false
      rfl (by decide)).2.2 0 (by decide) (by decide)
      (fun j hj => absurd hj (Nat.not_lt_zero j))⟩

/-! ## Claim C4 -/

/-- C4: with a non-empty custom identifier and a valid original URL, `Create`
fails with a `Validation` error exactly when the whitespace-trimmed identifier
is malformed in the spec's sense (length outside `[3,50]`, a character other
than ASCII letters, digits and hyphen, or a case-insensitive reserved word);
a well-formed identifier already in the store fails with `Conflict`; a
well-formed identifier absent from the store is accepted and becomes the
record's id (in particular well-formed identifiers of length 3 and 50 are
accepted, being not malformed). -/
theorem C4_custom_id_validation (baseURL : String) (st : SysState)
    (req : CreateURLRequest) (apiKey : String) (now : Int) (rand : Nat → Fin 62)
    (f : Bool) (cid : String) (hc : req.customID = some cid) (hne : cid ≠ "")
    (hurl : ValidateOriginalURL req.originalURL = .ok ()) :
    ((∃ e, (CreateShortURL baseURL st req apiKey now rand f).1 = .error e ∧
        e.code = .validation) ↔ specBadCustomID (trimSpace cid)) ∧
    (¬ specBadCustomID (trimSpace cid) → storeExistsByID st.store (trimSpace cid) = true →
        (CreateShortURL baseURL st req apiKey now rand f).1
          = .error (NewConflictError "Custom ID" (trimSpace cid))) ∧
    (¬ specBadCustomID (trimSpace cid) → storeExistsByID st.store (trimSpace cid) = false →
        ∃ r, (CreateShortURL baseURL st req apiKey now rand f).1 = .ok r ∧
          r.id = trimSpace cid) := by
  by_cases hbad : specBadCustomID (trimSpace cid)
  · have hverr : ∃ e, ValidateCustomID (trimSpace cid) = .error e := by
      cases hv : ValidateCustomID (trimSpace cid) with
      | ok u =>
        cases u
        exact absurd ((validateCustomID_ok_iff _).mp hv) (not_not_intro hbad)
      | error e => exact ⟨e, rfl⟩
    obtain ⟨e, hv⟩ := hverr
    refine ⟨⟨fun _ => hbad, fun _ => ?_⟩,
      fun hnb _ => absurd hbad hnb, fun hnb _ => absurd hbad hnb⟩
    refine ⟨NewValidationError "custom_id" e.message [], ?_, rfl⟩
    simp [CreateShortURL, hurl, pickId, hc, hne, hv]
  · have hv : ValidateCustomID (trimSpace cid) = .ok () := (validateCustomID_ok_iff _).mpr hbad
    by_cases hex : storeExistsByID st.store (trimSpace cid) = true
    · have hres : (CreateShortURL baseURL st req apiKey now rand f).1
          = .error (NewConflictError "Custom ID" (trimSpace cid)) := by
        simp [CreateShortURL, hurl, pickId, hc, hne, hv, hex]
      refine ⟨⟨?_, fun h => absurd h hbad⟩, fun _ _ => hres, fun _ hcontra => ?_⟩
      · rintro ⟨e, he, hcode⟩
        rw [hres] at he
        have he' : NewConflictError "Custom ID" (trimSpace cid) = e := by
          exact (Except.error.injEq _ _).mp he
        rw [← he'] at hcode
        exact absurd hcode (by simp [NewConflictError])
      · rw [hex] at hcontra
        cases hcontra
    · have hexf : storeExistsByID st.store (trimSpace cid) = false := by
        cases hx : storeExistsByID st.store (trimSpace cid)
        · rfl
        · exact absurd hx hex
      have hred : CreateShortURL baseURL st req apiKey now rand f
          = createWithId baseURL st req apiKey now f (trimSpace cid) := by
        simp [CreateShortURL, hurl, pickId, hc, hne, hv, hexf]
      rw [hred, createWithId_fresh baseURL st req apiKey now f (trimSpace cid) hexf]
      refine ⟨⟨?_, fun h => absurd h hbad⟩, fun _ hcontra => ?_, fun _ _ => ⟨_, rfl, rfl⟩⟩
      · rintro ⟨e, he, _⟩
        exact absurd he (by simp)
      · rw [hexf] at hcontra
        cases hcontra

/-- Witness for C4 at the length-3 identifier `"abc"` on the empty store. -/
theorem C4_witness :
    ((∃ e, (CreateShortURL baseW emptyState c4req "k" 5 rand0 false).1 = .error e ∧
        e.code = .validation) ↔ specBadCustomID (trimSpace "abc")) ∧
    (¬ specBadCustomID (trimSpace "abc") →
        storeExistsByID emptyState.store (trimSpace "abc") = true →
        (CreateShortURL baseW emptyState c4req "k" 5 rand0 false).1
          = .error (NewConflictError "Custom ID" (trimSpace "abc"))) ∧
    (¬ specBadCustomID (trimSpace "abc") →
        storeExistsByID emptyState.store (trimSpace "abc") = false →
        ∃ r, (CreateShortURL baseW emptyState c4req "k" 5 rand0 false).1 = .ok r ∧
          r.id = trimSpace "abc") :=
  C4_custom_id_validation baseW emptyState c4req "k" 5 rand0 false "abc"
    rfl (by decide) (by decide)

/-! ## Resolve-path lemmas -/

/-- A cache hit returns the cached record with rebuilt derived fields. -/
theorem GetURL_hit (baseURL : String) (st : SysState) (id : String) (now : Int)
    (f : Bool) (u : URLRec) (hhit : cacheGetURL st.cache id = some u) :
    (GetURL baseURL st id now f).1 = .ok (buildDerived baseURL u) := by
  simp [GetURL, hhit]

/-- A cache miss over an accessible stored row returns the row with rebuilt
derived fields. -/
theorem GetURL_miss_ok (baseURL : String) (st : SysState) (id : String) (now : Int)
    (f : Bool) (r : URLRec) (hmiss : cacheGetURL st.cache id = none)
    (hr : storeGetByID st.store id = some r) (hacc : IsAccessible r now = true) :
    (GetURL baseURL st id now f).1 = .ok (buildDerived baseURL r) := by
  simp [GetURL, hmiss, hr, hacc]

/-! ## Claim C5 -/

/-- C5: a successful `Create` of a request with a valid original URL returns a
record carrying the input URL, and persists a row with `is_active = true`,
`click_count = 0`, both timestamps equal to the creation instant and the
owner key equal to the caller's credential; resolving the returned id then
yields a record whose `original_url` equals the input.  The resolve conjunct
assumes the record is not yet expired at resolve time and that the pre-create
cache held no entry under the new id (in reachable states every cached id is
also a store id, and the create's insert succeeded, so this always holds). -/
theorem C5_create_resolve (baseURL : String) (st : SysState) (req : CreateURLRequest)
    (apiKey : String) (now : Int) (rand : Nat → Fin 62) (f : Bool) (r : URLRec)
    (st' : SysState)
    (h : CreateShortURL baseURL st req apiKey now rand f = (.ok r, st'))
    (hmiss : cacheGetURL st.cache r.id = none)
    (hexp : IsExpired r now = false) :
    r.originalURL = req.originalURL ∧ r.isActive = true ∧ r.clickCount = 0 ∧
    r.createdAt = now ∧ r.updatedAt = now ∧ r.createdByAPIKey = apiKey ∧
    storeGetByID st'.store r.id = some { r with shortURL := "", qrCodeURL := "" } ∧
    (∃ r2, (GetURL baseURL st' r.id now f).1 = .ok r2 ∧
      r2.originalURL = req.originalURL) := by
  cases hv : ValidateOriginalURL req.originalURL with
  | error e => simp [CreateShortURL, hv] at h
  | ok u =>
    cases u
    cases hp : pickId st.store req rand with
    | error e => simp [CreateShortURL, hv, hp] at h
    | ok id =>
      simp only [CreateShortURL, hv, hp] at h
      by_cases hex : storeExistsByID st.store id = true
      · have hcerr : storeCreate st.store
            (buildDerived baseURL (NewURL id req.originalURL req.description req.expiresAt now apiKey))
            = .error () := by
          rw [storeExistsByID] at hex
          simp [storeCreate, buildDerived, BuildShortURL, BuildQRCodeURL, NewURL, hex]
        simp [createWithId, hcerr] at h
      · have hexf : storeExistsByID st.store id = false := by
          cases hx : storeExistsByID st.store id
          · rfl
          · exact absurd hx hex
        rw [createWithId_fresh baseURL st req apiKey now f id hexf] at h
        have hfst := congrArg Prod.fst h
        have hsnd := congrArg Prod.snd h
        simp only at hfst hsnd
        injection hfst with hr
        subst hr
        subst hsnd
        have hget : storeGetByID
            (st.store ++
              [{ buildDerived baseURL (NewURL id req.originalURL req.description req.expiresAt now apiKey) with
                   shortURL := "", qrCodeURL := "" }])
            (buildDerived baseURL (NewURL id req.originalURL req.description req.expiresAt now apiKey)).id
            = some { buildDerived baseURL (NewURL id req.originalURL req.description req.expiresAt now apiKey) with
                       shortURL := "", qrCodeURL := "" } :=
          storeGetByID_append_self st.store _ hexf rfl
        refine ⟨rfl, rfl, rfl, rfl, rfl, rfl, hget, ?_⟩
        cases f with
        | false =>
          exact ⟨buildDerived baseURL (jsonRound (buildDerived baseURL
              (NewURL id req.originalURL req.description req.expiresAt now apiKey))),
            GetURL_hit baseURL _ _ now false _
              (cacheGetURL_setURL_self st.cache
                (buildDerived baseURL (NewURL id req.originalURL req.description req.expiresAt now apiKey))),
            rfl⟩
        | true =>
          have hexp' : IsExpired
              { buildDerived baseURL (NewURL id req.originalURL req.description req.expiresAt now apiKey) with
                  shortURL := "", qrCodeURL := "" } now = false := hexp
          have hacc : IsAccessible
              { buildDerived baseURL (NewURL id req.originalURL req.description req.expiresAt now apiKey) with
                  shortURL := "", qrCodeURL := "" } now = true := by
            simp only [IsAccessible, hexp']
            rfl
          exact ⟨buildDerived baseURL
              { buildDerived baseURL (NewURL id req.originalURL req.description req.expiresAt now apiKey) with
                  shortURL := "", qrCodeURL := "" },
            GetURL_miss_ok baseURL _ _ now true _ hmiss hget hacc,
            rfl⟩

/-- Witness for C5: the concrete create of `c5req` from the empty state at
instant 10 and its resolve. -/
theorem C5_witness :
    c5rec.originalURL = c5req.originalURL ∧ c5rec.isActive = true ∧
    c5rec.clickCount = 0 ∧ c5rec.createdAt = 10 ∧ c5rec.updatedAt = 10 ∧
    c5rec.createdByAPIKey = "k" ∧
    storeGetByID c5st.store c5rec.id = some { c5rec with shortURL := "", qrCodeURL := "" } ∧
    (∃ r2, (GetURL baseW c5st c5rec.id 10 false).1 = .ok r2 ∧
      r2.originalURL = c5req.originalURL) :=
  C5_create_resolve baseW emptyState c5req "k" 10 rand0 false c5rec c5st
    (by decide) (by decide) (by decide)

/-! ## Claim C7 -/

/-- The repository's total count is a list length, hence non-negative. -/
theorem storeList_snd_nonneg (store : List URLRec) (apiKey : String)
    (options : URLListOptions) : 0 ≤ (storeList store apiKey options).2 := by
  unfold storeList
  dsimp only
  exact Int.natCast_nonneg _

/-- The `if totalPages0 = 0 then 1` adjustment of the service equals clamping
the ceiling below by one. -/
theorem totalPages_eq_max (tc l : Int) (htc : 0 ≤ tc) (hl : 1 ≤ l) :
    (if (tc + l - 1) / l = 0 then 1 else (tc + l - 1) / l)
      = max 1 ((tc + l - 1) / l) := by
  have h0 : 0 ≤ (tc + l - 1) / l := Int.ediv_nonneg (by omega) (by omega)
  by_cases h : (tc + l - 1) / l = 0
  · simp [h]
  · rw [if_neg h]
    omega

/-- C7 (amended): `ListURLs` defaults the page to 1 when not positive,
defaults the limit to 20 when not positive and clamps it to 100, and returns
metadata with `total_pages = max 1 (ceil (total_count / limit))` (the service
forces at least one page even for an empty result, where the ceiling is 0),
`has_next = (page < total_pages)` and `has_prev = (page > 1)`; in particular
`limit = 20` with `total_count = 95` yields `total_pages = 5`, and page 5 has
`has_next = false` and `has_prev = true`. -/
theorem C7_pagination (baseURL : String) (st : SysState) (apiKey : String)
    (options : URLListOptions) :
    (listMeta baseURL st apiKey options).currentPage
        = (if options.page ≤ 0 then 1 else options.page) ∧
    (listMeta baseURL st apiKey options).perPage
        = (if (if options.limit ≤ 0 then 20 else options.limit) > 100 then 100
           else if options.limit ≤ 0 then 20 else options.limit) ∧
    (listMeta baseURL st apiKey options).totalPages
        = max 1 (((listMeta baseURL st apiKey options).totalCount
              + (listMeta baseURL st apiKey options).perPage - 1)
            / (listMeta baseURL st apiKey options).perPage) ∧
    (listMeta baseURL st apiKey options).hasNext
        = decide ((listMeta baseURL st apiKey options).currentPage
            < (listMeta baseURL st apiKey options).totalPages) ∧
    (listMeta baseURL st apiKey options).hasPrev
        = decide ((listMeta baseURL st apiKey options).currentPage > 1) ∧
    (listMeta baseW { store := store95, cache := [] } "k" opts95).totalPages = 5 ∧
    (listMeta baseW { store := store95, cache := [] } "k" opts95).totalCount = 95 ∧
    (listMeta baseW { store := store95, cache := [] } "k" opts95).hasNext = false ∧
    (listMeta baseW { store := store95, cache := [] } "k" opts95).hasPrev = true := by
  refine ⟨?_, ?_, ?_, ?_, ?_, by decide, by decide, by decide, by decide⟩
  · simp [listMeta, ListURLs, paginationOf]
  · simp [listMeta, ListURLs, paginationOf]
  · simp only [listMeta, ListURLs, paginationOf]
    exact totalPages_eq_max _ _ (storeList_snd_nonneg st.store apiKey _)
      (by split_ifs <;> omega)
  · simp [listMeta, ListURLs, paginationOf]
  · simp [listMeta, ListURLs, paginationOf]

/-- Counterexample to C7 as stated: on an empty table with default options the
service returns `total_pages = 1`, while `ceil(total_count / limit)` is
`(0 + 20 - 1) / 20 = 0`. -/
theorem C7_counterexample :
    (listMeta baseW emptyState "k" optsDefault).totalCount = 0 ∧
    (listMeta baseW emptyState "k" optsDefault).perPage = 20 ∧
    (listMeta baseW emptyState "k" optsDefault).totalPages = 1 ∧
    ((0 : Int) + 20 - 1) / 20 = 0 ∧ (1 : Int) ≠ 0 := by
  decide

/-! ## Claim C8 -/

/-- A lookup of an id whose rows are all soft-deleted misses. -/
theorem storeGetByID_eq_none_of_all_inactive (store : List URLRec) (id : String)
    (hall : ∀ u ∈ store, u.id = id → u.isActive = false) :
    storeGetByID store id = none := by
  rw [storeGetByID, List.find?_eq_none]
  intro x hx hcontra
  simp only [Bool.and_eq_true, beq_iff_eq] at hcontra
  rw [hall x hx hcontra.1] at hcontra
  exact Bool.false_ne_true hcontra.2

/-- C8: `Update` fails `NotFound` with the state unchanged when no (active)
record with the id is found, fails `Unauthorized` with the state unchanged on
an owner mismatch, and otherwise returns the patched record, rewrites only the
patched columns of the matching row (`id`, `created_at` and `owner_key` are
not even in the `UPDATE`'s column list; `click_count` and `last_accessed_at`
are written back unchanged), sets `updated_at = now` and invalidates the cache
entry for the id. -/
theorem C8_update_frame (baseURL : String) (st : SysState) (id : String)
    (req : UpdateURLRequest) (apiKey : String) (now : Int) :
    (∀ fd, storeGetByID st.store id = none →
        UpdateURL baseURL st id req apiKey now fd
          = (.error (NewNotFoundError "Short URL"), st)) ∧
    (∀ fd, ∀ r, storeGetByID st.store id = some r → r.createdByAPIKey ≠ apiKey →
        UpdateURL baseURL st id req apiKey now fd
          = (.error (NewUnauthorizedError "You don't have permission to update this URL"), st)) ∧
    (∀ r, storeGetByID st.store id = some r → r.createdByAPIKey = apiKey →
        (req.originalURL = none ∨
          ∃ ou, req.originalURL = some ou ∧ ValidateOriginalURL ou = .ok ()) →
        UpdateURL baseURL st id req apiKey now false
          = (.ok (buildDerived baseURL (applyPatch r req now)),
             { store := st.store.map (storeUpdRow (applyPatch r req now)),
               cache := st.cache.filter (fun e => !(e.1 == id)) }) ∧
        cacheGetURL (st.cache.filter (fun e => !(e.1 == id))) id = none ∧
        (applyPatch r req now).id = r.id ∧
        (applyPatch r req now).createdAt = r.createdAt ∧
        (applyPatch r req now).clickCount = r.clickCount ∧
        (applyPatch r req now).lastAccessedAt = r.lastAccessedAt ∧
        (applyPatch r req now).createdByAPIKey = r.createdByAPIKey ∧
        (applyPatch r req now).updatedAt = now ∧
        (applyPatch r req now).originalURL
          = (match req.originalURL with | some ou => ou | none => r.originalURL) ∧
        (applyPatch r req now).description
          = (match req.description with | some d => some d | none => r.description) ∧
        (applyPatch r req now).expiresAt
          = (match req.expiresAt with | some t => some t | none => r.expiresAt) ∧
        (applyPatch r req now).isActive
          = (match req.isActive with | some b => b | none => r.isActive) ∧
        (∀ x : URLRec, (storeUpdRow (applyPatch r req now) x).id = x.id ∧
            (storeUpdRow (applyPatch r req now) x).createdAt = x.createdAt ∧
            (storeUpdRow (applyPatch r req now) x).createdByAPIKey = x.createdByAPIKey)) := by
  refine ⟨?_, ?_, ?_⟩
  · intro fd h
    simp [UpdateURL, h]
  · intro fd r hr hown
    simp [UpdateURL, hr, hown]
  · intro r hr hown hval
    have hany : st.store.any (fun x => x.id == (applyPatch r req now).id) = true :=
      storeAny_of_getByID st.store id r hr
    have hupd : storeUpdate st.store (applyPatch r req now)
        = .ok (st.store.map (storeUpdRow (applyPatch r req now))) := by
      simp [storeUpdate, hany]
    have hframe : ∀ x : URLRec, (storeUpdRow (applyPatch r req now) x).id = x.id ∧
        (storeUpdRow (applyPatch r req now) x).createdAt = x.createdAt ∧
        (storeUpdRow (applyPatch r req now) x).createdByAPIKey = x.createdByAPIKey := by
      intro x
      by_cases hx : (x.id == (applyPatch r req now).id) = true
      · simp [storeUpdRow, hx]
      · simp [storeUpdRow, hx]
    rcases hval with hnone | ⟨ou, hou, hvou⟩
    · refine ⟨?_, cacheGetURL_filter_self st.cache id, rfl, rfl, rfl, rfl, rfl, rfl,
        rfl, rfl, rfl, rfl, hframe⟩
      simp [UpdateURL, hr, hown, hnone, hupd, cacheDeleteURL]
    · refine ⟨?_, cacheGetURL_filter_self st.cache id, rfl, rfl, rfl, rfl, rfl, rfl,
        rfl, rfl, rfl, rfl, hframe⟩
      simp [UpdateURL, hr, hown, hou, hvou, hupd, cacheDeleteURL]

/-- Witness for C8: missing id, wrong owner, and a full patch on `c8st`. -/
theorem C8_witness :
    (UpdateURL baseW c8st "nope" c8req "k" 5 false
      = (.error (NewNotFoundError "Short URL"), c8st)) ∧
    (UpdateURL baseW c8st "w8a" c8req "other" 5 false
      = (.error (NewUnauthorizedError "You don't have permission to update this URL"), c8st)) ∧
    (UpdateURL baseW c8st "w8a" c8req "k" 5 false
      = (.ok (buildDerived baseW (applyPatch c8rec c8req 5)),
         { store := c8st.store.map (storeUpdRow (applyPatch c8rec c8req 5)),
           cache := c8st.cache.filter (fun e => !(e.1 == "w8a")) })) :=
  ⟨(C8_update_frame baseW c8st "nope" c8req "k" 5).1 false (by decide),
   (C8_update_frame baseW c8st "w8a" c8req "other" 5).2.1 false c8rec (by decide) (by decide),
   ((C8_update_frame baseW c8st "w8a" c8req "k" 5).2.2 c8rec (by decide) (by decide)
      (Or.inr ⟨"https://example.com/new", rfl, by decide⟩)).1⟩

/-! ## Claim C9 -/

/-- C9: the caller-visible result of `Create`, `Resolve`, `Update` and
`Delete` does not depend on whether the best-effort cache call (the
post-success `SetURL` for the first two, the invalidating `DeleteURL` for the
last two) fails: the failing-cache run returns exactly the failing-free run's
result (the failure is only logged and absorbed; logging is not modelled). -/
theorem C9_cache_failures_absorbed (baseURL : String) (st : SysState)
    (req : CreateURLRequest) (upd : UpdateURLRequest) (id apiKey : String)
    (now : Int) (rand : Nat → Fin 62) :
    (CreateShortURL baseURL st req apiKey now rand true).1
        = (CreateShortURL baseURL st req apiKey now rand false).1 ∧
    (GetURL baseURL st id now true).1 = (GetURL baseURL st id now false).1 ∧
    (UpdateURL baseURL st id upd apiKey now true).1
        = (UpdateURL baseURL st id upd apiKey now false).1 ∧
    (DeleteURL st id apiKey now true).1 = (DeleteURL st id apiKey now false).1 := by
  refine ⟨?_, ?_, ?_, ?_⟩
  · cases hv : ValidateOriginalURL req.originalURL with
    | error e => simp [CreateShortURL, hv]
    | ok u =>
      cases u
      cases hp : pickId st.store req rand with
      | error e => simp [CreateShortURL, hv, hp]
      | ok id2 =>
        cases hsc : storeCreate st.store
            (buildDerived baseURL (NewURL id2 req.originalURL req.description req.expiresAt now apiKey)) with
        | error u2 => simp [CreateShortURL, hv, hp, createWithId, hsc]
        | ok s2 => simp [CreateShortURL, hv, hp, createWithId, hsc]
  · cases hcg : cacheGetURL st.cache id with
    | some u => simp [GetURL, hcg]
    | none =>
      cases hsg : storeGetByID st.store id with
      | none => simp [GetURL, hcg, hsg]
      | some u =>
        cases hacc : IsAccessible u now <;> cases hie : IsExpired u now <;>
          simp [GetURL, hcg, hsg, hacc, hie]
  · cases hr : storeGetByID st.store id with
    | none => simp [UpdateURL, hr]
    | some r =>
      by_cases hown : r.createdByAPIKey ≠ apiKey
      · simp [UpdateURL, hr, hown]
      · cases ho : upd.originalURL with
        | none =>
          cases hupd : storeUpdate st.store (applyPatch r upd now) with
          | error u2 => simp [UpdateURL, hr, hown, ho, hupd]
          | ok s2 => simp [UpdateURL, hr, hown, ho, hupd]
        | some ou =>
          cases hvou : ValidateOriginalURL ou with
          | error e => simp [UpdateURL, hr, hown, ho, hvou]
          | ok u2 =>
            cases u2
            cases hupd : storeUpdate st.store (applyPatch r upd now) with
            | error u3 => simp [UpdateURL, hr, hown, ho, hvou, hupd]
            | ok s3 => simp [UpdateURL, hr, hown, ho, hvou, hupd]
  · cases hr : storeGetByID st.store id with
    | none => simp [DeleteURL, hr]
    | some r =>
      by_cases hown : r.createdByAPIKey ≠ apiKey
      · simp [DeleteURL, hr, hown]
      · cases hsd : storeDelete st.store id now with
        | error u2 => simp [DeleteURL, hr, hown, hsd]
        | ok s2 => simp [DeleteURL, hr, hown, hsd]

/-! ## Claim C10 -/

/-- C10: `GetURLStats` applies no accessibility check — for an owner-matching
active row it returns the row (with rebuilt derived fields) even at an instant
past its expiry — while an id whose rows are all soft-deleted yields
`NotFound`, because the store lookup filters on `is_active = true`. -/
theorem C10_stats_ignore_expiry (baseURL : String) (st : SysState)
    (id apiKey : String) (now : Int) :
    (∀ r, storeGetByID st.store id = some r → r.createdByAPIKey = apiKey →
        IsExpired r now = true →
        (GetURLStats baseURL st id apiKey).1 = .ok (buildDerived baseURL r)) ∧
    ((∀ u ∈ st.store, u.id = id → u.isActive = false) →
        (GetURLStats baseURL st id apiKey).1 = .error (NewNotFoundError "Short URL")) := by
  constructor
  · intro r hr hown _
    simp [GetURLStats, hr, hown]
  · intro hall
    have hnone := storeGetByID_eq_none_of_all_inactive st.store id hall
    simp [GetURLStats, hnone]

/-- Witness for C10: an expired active row returns its stats at instant 10; a
soft-deleted row yields `NotFound`. -/
theorem C10_witness :
    (GetURLStats baseW { store := [c10rec], cache := [] } "s10" "k").1
      = .ok (buildDerived baseW c10rec) ∧
    (GetURLStats baseW { store := [c10recB], cache := [] } "s10b" "k").1
      = .error (NewNotFoundError "Short URL") :=
  ⟨(C10_stats_ignore_expiry baseW { store := [c10rec], cache := [] } "s10" "k" 10).1
      c10rec (by decide) (by decide) (by decide),
   (C10_stats_ignore_expiry baseW { store := [c10recB], cache := [] } "s10b" "k" 10).2
      (by decide)⟩

end UrlShortener
